import Mathlib

/-!
Shallow embedding of the core of `IS2_GL_Rasterize.ipynb`:
the point-to-grid rasterizer with pairwise collision averaging
(`create_raster_from_points_with_smoothing`, binning loop), the gap-filling
focal-mean smoother built from two `scipy.ndimage.uniform_filter` passes and a
masked division, and the per-file batch loop (`process_shapefiles`).

Real-valued data is modelled over `ℚ` (exact arithmetic standing in for the
floats of the source).  The working raster during binning is a function
`ℤ → ℤ → Option ℚ`, `none` playing the role of the `NaN` initialisation;
after binning the `NaN`s are replaced by the numeric sentinel `-9999`,
exactly as `np.where(np.isnan(raster), nodata, raster)` does.
-/

/-- The no-data sentinel, `nodata = -9999` in the source. -/
def nodata : ℚ := -9999

/-- Reference raster bounds, as returned by `rasterio`: `bounds.left`,
`bounds.right`, `bounds.top`, `bounds.bottom`. -/
structure Bounds where
  left : ℚ
  right : ℚ
  top : ℚ
  bottom : ℚ
deriving DecidableEq

/-- One point sample: a planar coordinate `(x, y)` and the attribute value
read from the selected column. -/
structure Sample where
  x : ℚ
  y : ℚ
  value : ℚ
deriving DecidableEq

/-- Python's `int()` applied to a real number: truncation toward zero
(`int(0.7) = 0`, `int(-0.7) = 0`).  This is NOT the mathematical floor on
negative inputs. -/
def pyInt (q : ℚ) : ℤ := if 0 ≤ q then ⌊q⌋ else ⌈q⌉

/-- `width = int((bounds.right - bounds.left) / pixel_size)`. -/
def width (b : Bounds) (S : ℚ) : ℤ := pyInt ((b.right - b.left) / S)

/-- `height = int((bounds.top - bounds.bottom) / pixel_size)`. -/
def height (b : Bounds) (S : ℚ) : ℤ := pyInt ((b.top - b.bottom) / S)

/-- `col = int((x - bounds.left) / pixel_size)`. -/
def colOf (b : Bounds) (S x : ℚ) : ℤ := pyInt ((x - b.left) / S)

/-- `row = int((bounds.top - y) / pixel_size)`. -/
def rowOf (b : Bounds) (S y : ℚ) : ℤ := pyInt ((b.top - y) / S)

/-- The source's bounds guard: `0 <= col < width and 0 <= row < height`. -/
def accepted (b : Bounds) (S : ℚ) (s : Sample) : Prop :=
  0 ≤ colOf b S s.x ∧ colOf b S s.x < width b S ∧
  0 ≤ rowOf b S s.y ∧ rowOf b S s.y < height b S

instance (b : Bounds) (S : ℚ) (s : Sample) : Decidable (accepted b S s) := by
  unfold accepted; exact inferInstance

/-- One iteration of the binning loop: compute `(row, col)` for the sample,
and if it passes the bounds guard, set the cell on first contact
(`if np.isnan(raster[row, col])`) or replace it with the pairwise mean
`(raster[row, col] + value) / 2` otherwise. -/
def binStep (b : Bounds) (S : ℚ) (r : ℤ → ℤ → Option ℚ) (s : Sample) :
    ℤ → ℤ → Option ℚ :=
  if accepted b S s then
    fun i j =>
      if i = rowOf b S s.y ∧ j = colOf b S s.x then
        match r (rowOf b S s.y) (colOf b S s.x) with
        | none => some s.value
        | some v => some ((v + s.value) / 2)
      else r i j
  else r

/-- The whole binning loop `for _, row in gdf.iterrows(): ...`, starting from
the all-`NaN` raster `np.full((height, width), np.nan)`. -/
def binPoints (b : Bounds) (S : ℚ) (samples : List Sample) :
    ℤ → ℤ → Option ℚ :=
  samples.foldl (binStep b S) (fun _ _ => none)

/-- `raster = np.where(np.isnan(raster), nodata, raster)`: the binned grid
with every untouched (`NaN`) cell replaced by the sentinel. -/
def preSmoothed (b : Bounds) (S : ℚ) (samples : List Sample) (i j : ℤ) : ℚ :=
  match binPoints b S samples i j with
  | none => nodata
  | some v => v

/-- Index reflection of `scipy.ndimage`'s default boundary mode `reflect`
(`(d c b a | a b c d | d c b a)`): symmetric, sample-repeating, period `2n`. -/
def reflectIndex (n t : ℤ) : ℤ :=
  let m := t % (2 * n)
  if m < n then m else 2 * n - 1 - m

/-- The window offsets of a size-`s` uniform filter along one axis:
`k - s/2` for `k = 0, …, s-1` (scipy's centering; `[-1, 0, 1]` for `s = 3`). -/
def windowOffsets (s : ℕ) : List ℤ :=
  (List.range s).map (fun k : ℕ => (k : ℤ) - ((s / 2 : ℕ) : ℤ))

/-- `scipy.ndimage.uniform_filter(g, size=s)` on an `h × w` grid: the mean of
the `s × s` window around each cell, out-of-range indices reflected by the
default `reflect` boundary mode (the filter is separable and the two axes
reflect independently). -/
def uniform_filter (h w : ℤ) (s : ℕ) (g : ℤ → ℤ → ℚ) : ℤ → ℤ → ℚ :=
  fun i j =>
    ((windowOffsets s).map (fun di =>
      ((windowOffsets s).map (fun dj =>
        g (reflectIndex h (i + di)) (reflectIndex w (j + dj)))).sum)).sum
    / ((s : ℚ) * (s : ℚ))

/-- `valid_mask = raster != nodata`. -/
def valid_mask (g : ℤ → ℤ → ℚ) (i j : ℤ) : Bool :=
  decide (g i j ≠ nodata)

/-- `np.where(valid_mask, raster, 0)`. -/
def zeroed (g : ℤ → ℤ → ℚ) (i j : ℤ) : ℚ :=
  if g i j ≠ nodata then g i j else 0

/-- `valid_mask.astype(float)`. -/
def maskFloat (g : ℤ → ℤ → ℚ) (i j : ℤ) : ℚ :=
  if g i j ≠ nodata then 1 else 0

/-- `smoothed_raster = uniform_filter(np.where(valid_mask, raster, 0), size=smoothing_window)`. -/
def smoothed_raster (h w : ℤ) (s : ℕ) (g : ℤ → ℤ → ℚ) : ℤ → ℤ → ℚ :=
  uniform_filter h w s (zeroed g)

/-- `weight_mask = uniform_filter(valid_mask.astype(float), size=smoothing_window)`. -/
def weight_mask (h w : ℤ) (s : ℕ) (g : ℤ → ℤ → ℚ) : ℤ → ℤ → ℚ :=
  uniform_filter h w s (maskFloat g)

/-- `np.where(cond, a, b)` as a selection between two ALREADY fully evaluated
arrays: numpy's `where` is strict, both argument arrays are computed over
every cell before the selection happens. -/
def npWhere (c : ℤ → ℤ → Bool) (a b : ℤ → ℤ → ℚ) : ℤ → ℤ → ℚ :=
  fun i j => if c i j then a i j else b i j

/-- The unconditional elementwise quotient `smoothed_raster / weight_mask`
that the source builds as the second argument of `np.where`: it is evaluated
at EVERY cell of the grid, zero-weight cells included (in numpy this emits
`RuntimeWarning: invalid value encountered in divide`, visible in the
notebook's saved output; over `ℚ` the junk value is `x / 0 = 0`). -/
def quotientGrid (h w : ℤ) (s : ℕ) (g : ℤ → ℤ → ℚ) : ℤ → ℤ → ℚ :=
  fun i j => smoothed_raster h w s g i j / weight_mask h w s g i j

/-- `raster_smoothed = np.where(weight_mask > 0, smoothed_raster / weight_mask, nodata)`. -/
def raster_smoothed (h w : ℤ) (s : ℕ) (g : ℤ → ℤ → ℚ) : ℤ → ℤ → ℚ :=
  npWhere (fun i j => decide (0 < weight_mask h w s g i j))
    (quotientGrid h w s g) (fun _ _ => nodata)

/-- True when evaluating the strict quotient array touches a zero divisor
somewhere on the `hh × ww` grid — exactly the situation in which numpy
emits the divide `RuntimeWarning` recorded in the notebook output. -/
def divideByZeroWarned (hh ww : ℕ) (s : ℕ) (g : ℤ → ℤ → ℚ) : Bool :=
  (List.range hh).any fun i =>
    (List.range ww).any fun j =>
      decide (weight_mask (hh : ℤ) (ww : ℤ) s g (i : ℤ) (j : ℤ) = 0)

/-- The running pairwise average of the collision policy: starting from the
first value, each later value is averaged with the current cell value. -/
def pairFold (a : ℚ) (l : List ℚ) : ℚ :=
  l.foldl (fun acc v => (acc + v) / 2) a

/-- A 3×3 window's nine offsets, row-major. -/
def offsets3 : List (ℤ × ℤ) :=
  [(-1,-1),(-1,0),(-1,1),(0,-1),(0,0),(0,1),(1,-1),(1,0),(1,1)]

/-- Number of valid (non-sentinel) cells in the 3×3 neighborhood of `(i, j)`. -/
def validCount (g : ℤ → ℤ → ℚ) (i j : ℤ) : ℕ :=
  (offsets3.filter (fun p => decide (g (i + p.1) (j + p.2) ≠ nodata))).length

/-- Sum of the valid (non-sentinel) values in the 3×3 neighborhood of `(i, j)`. -/
def validSum (g : ℤ → ℤ → ℚ) (i j : ℤ) : ℚ :=
  ((offsets3.filter (fun p => decide (g (i + p.1) (j + p.2) ≠ nodata))).map
    (fun p => g (i + p.1) (j + p.2))).sum

lemma pyInt_of_nonneg {q : ℚ} (h : 0 ≤ q) : pyInt q = ⌊q⌋ := if_pos h

lemma pyInt_mono {a b : ℚ} (h : a ≤ b) : pyInt a ≤ pyInt b := by
  unfold pyInt
  by_cases ha : 0 ≤ a
  · rw [if_pos ha, if_pos (le_trans ha h)]
    exact Int.floor_le_floor h
  · rw [if_neg ha]
    by_cases hb : 0 ≤ b
    · rw [if_pos hb]
      have h1 : ⌈a⌉ ≤ 0 := Int.ceil_le.mpr (by push_cast; linarith)
      have h2 : (0 : ℤ) ≤ ⌊b⌋ := Int.floor_nonneg.mpr hb
      omega
    · rw [if_neg hb]
      exact Int.ceil_le_ceil h

lemma pyInt_le_neg_one {q : ℚ} (h : q ≤ -1) : pyInt q ≤ -1 := by
  unfold pyInt
  rw [if_neg (by linarith)]
  exact Int.ceil_le.mpr (by push_cast; linarith)

/-- C3 helper: the index formulas of the source, with the floor comparison. -/
theorem index_mapping_truncates_toward_zero (b : Bounds) (S x y : ℚ) (hS : 0 < S) :
    colOf b S x = pyInt ((x - b.left) / S) ∧
    rowOf b S y = pyInt ((b.top - y) / S) ∧
    (b.left ≤ x → colOf b S x = ⌊(x - b.left) / S⌋) ∧
    (y ≤ b.top → rowOf b S y = ⌊(b.top - y) / S⌋) := by
  refine ⟨rfl, rfl, ?_, ?_⟩
  · intro hx
    exact pyInt_of_nonneg (div_nonneg (by linarith) hS.le)
  · intro hy
    exact pyInt_of_nonneg (div_nonneg (by linarith) hS.le)

/-- C3 counterexample: for a point half a cell left of the reference extent
the source computes column `int(-0.5) = 0`, not `floor(-0.5) = -1`. -/
theorem col_index_not_floor_below_left :
    colOf ⟨0, 100, 100, 0⟩ 10 (-5) ≠ ⌊((-5 : ℚ) - (Bounds.mk 0 100 100 0).left) / 10⌋ := by
  have h1 : colOf ⟨0, 100, 100, 0⟩ 10 (-5) = 0 := by
    unfold colOf pyInt
    rw [if_neg (by norm_num)]
    rw [Int.ceil_eq_iff]
    constructor
    · norm_num
    · norm_num
  have h2 : ⌊((-5 : ℚ) - (Bounds.mk 0 100 100 0).left) / 10⌋ = -1 := by
    show ⌊((-5 : ℚ) - 0) / 10⌋ = -1
    rw [Int.floor_eq_iff]
    constructor
    · norm_num
    · norm_num
  rw [h1, h2]
  decide

/-- C4: for a well-formed reference extent and positive cell size, the
source's `int(...)` dimensions agree with the spec's floors. -/
theorem grid_dims_are_floor (b : Bounds) (S : ℚ) (hS : 0 < S)
    (hlr : b.left ≤ b.right) (hbt : b.bottom ≤ b.top) :
    width b S = ⌊(b.right - b.left) / S⌋ ∧
    height b S = ⌊(b.top - b.bottom) / S⌋ := by
  constructor
  · exact pyInt_of_nonneg (div_nonneg (by linarith) hS.le)
  · exact pyInt_of_nonneg (div_nonneg (by linarith) hS.le)

/-- C2, amended: a sample outside the reference extent `[L,R) × [B,T)` that
moreover does not fall in the truncation strips `(L - S, L)` in `x` or
`[T, T + S)` in `y` fails the bounds guard, so the whole binning loop leaves
every cell of the grid unchanged. -/
theorem oob_sample_leaves_grid_unchanged (b : Bounds) (S : ℚ) (hS : 0 < S)
    (s : Sample)
    (hout : ¬ (b.left ≤ s.x ∧ s.x < b.right ∧ b.bottom ≤ s.y ∧ s.y < b.top))
    (hxstrip : ¬ (b.left - S < s.x ∧ s.x < b.left))
    (hystrip : ¬ (b.top ≤ s.y ∧ s.y < b.top + S)) :
    ∀ pre post : List Sample,
      binPoints b S (pre ++ s :: post) = binPoints b S (pre ++ post) := by
  have hfour : s.x < b.left ∨ b.right ≤ s.x ∨ s.y < b.bottom ∨ b.top ≤ s.y := by
    by_contra hc
    push_neg at hc
    exact hout ⟨hc.1, hc.2.1, hc.2.2.1, hc.2.2.2⟩
  have hacc : ¬ accepted b S s := by
    rcases hfour with hx1 | hx2 | hy1 | hy2
    · have hxs : s.x ≤ b.left - S := by
        by_contra hc
        push_neg at hc
        exact hxstrip ⟨hc, hx1⟩
      have hcol : colOf b S s.x ≤ -1 := by
        apply pyInt_le_neg_one
        rw [div_le_iff₀ hS]
        linarith
      intro ha
      have := ha.1
      omega
    · have hcol : width b S ≤ colOf b S s.x := by
        apply pyInt_mono
        rw [div_le_div_iff_of_pos_right hS]
        linarith
      intro ha
      have := ha.2.1
      omega
    · have hrow : height b S ≤ rowOf b S s.y := by
        apply pyInt_mono
        rw [div_le_div_iff_of_pos_right hS]
        linarith
      intro ha
      have := ha.2.2.2
      omega
    · have hys : b.top + S ≤ s.y := by
        by_contra hc
        push_neg at hc
        exact hystrip ⟨hy2, hc⟩
      have hrow : rowOf b S s.y ≤ -1 := by
        apply pyInt_le_neg_one
        rw [div_le_iff₀ hS]
        linarith
      intro ha
      have := ha.2.2.1
      omega
  have hstep : ∀ r, binStep b S r s = r := fun r => if_neg hacc
  intro pre post
  unfold binPoints
  rw [List.foldl_append, List.foldl_append, List.foldl_cons, hstep]

/-- C2 counterexample: the point `(x, y) = (-5, 95)` lies outside the extent
`[0, 100) × [0, 100)` (its `x` is left of `left`), yet truncation maps it to
cell `(0, 0)` and its value 7 is written into the grid. -/
theorem snapped_oob_point_changes_grid :
    ¬ ((Bounds.mk 0 100 100 0).left ≤ (-5 : ℚ) ∧ (-5 : ℚ) < (Bounds.mk 0 100 100 0).right ∧
        (Bounds.mk 0 100 100 0).bottom ≤ (95 : ℚ) ∧ (95 : ℚ) < (Bounds.mk 0 100 100 0).top) ∧
    preSmoothed ⟨0, 100, 100, 0⟩ 10 [⟨-5, 95, 7⟩] 0 0 = 7 ∧
    preSmoothed ⟨0, 100, 100, 0⟩ 10 [] 0 0 = nodata ∧ (7 : ℚ) ≠ nodata := by
  have hcol : colOf ⟨0, 100, 100, 0⟩ 10 (-5) = 0 := by
    unfold colOf pyInt
    rw [if_neg (by norm_num)]
    rw [Int.ceil_eq_iff]
    constructor
    · norm_num
    · norm_num
  have hrow : rowOf ⟨0, 100, 100, 0⟩ 10 95 = 0 := by
    unfold rowOf pyInt
    rw [if_pos (by norm_num)]
    rw [Int.floor_eq_iff]
    constructor
    · norm_num
    · norm_num
  have hwidth : width ⟨0, 100, 100, 0⟩ 10 = 10 := by
    unfold width pyInt
    rw [if_pos (by norm_num)]
    rw [Int.floor_eq_iff]
    constructor
    · norm_num
    · norm_num
  have hheight : height ⟨0, 100, 100, 0⟩ 10 = 10 := by
    unfold height pyInt
    rw [if_pos (by norm_num)]
    rw [Int.floor_eq_iff]
    constructor
    · norm_num
    · norm_num
  refine ⟨by intro hc; have := hc.1; norm_num at this, ?_, ?_, by norm_num [nodata]⟩
  · unfold preSmoothed binPoints
    simp only [List.foldl_cons, List.foldl_nil]
    unfold binStep
    rw [if_pos (by exact ⟨by rw [hcol], by rw [hcol, hwidth]; norm_num,
      by rw [hrow], by rw [hrow, hheight]; norm_num⟩)]
    simp [hcol, hrow]
  · simp [preSmoothed, binPoints]

lemma binStep_hit (b : Bounds) (S : ℚ) (s : Sample) (r : ℤ → ℤ → Option ℚ)
    (i j : ℤ) (hacc : accepted b S s)
    (hrow : rowOf b S s.y = i) (hcol : colOf b S s.x = j) :
    binStep b S r s i j =
      match r i j with
      | none => some s.value
      | some v => some ((v + s.value) / 2) := by
  unfold binStep
  rw [if_pos hacc]
  simp only [hrow, hcol, and_self, if_pos]

lemma binStep_miss (b : Bounds) (S : ℚ) (s : Sample) (r : ℤ → ℤ → Option ℚ)
    (i j : ℤ)
    (h : ¬ (accepted b S s ∧ rowOf b S s.y = i ∧ colOf b S s.x = j)) :
    binStep b S r s i j = r i j := by
  unfold binStep
  by_cases hacc : accepted b S s
  · rw [if_pos hacc]
    have hij : ¬ (i = rowOf b S s.y ∧ j = colOf b S s.x) := by
      rintro ⟨h1, h2⟩
      exact h ⟨hacc, h1.symm, h2.symm⟩
    rw [if_neg hij]
  · rw [if_neg hacc]

lemma foldl_binStep_all_hits (b : Bounds) (S : ℚ) (i j : ℤ) (l : List Sample)
    (hall : ∀ s ∈ l, accepted b S s ∧ rowOf b S s.y = i ∧ colOf b S s.x = j) :
    ∀ (r : ℤ → ℤ → Option ℚ) (a : ℚ), r i j = some a →
      (l.foldl (binStep b S) r) i j = some (pairFold a (l.map Sample.value)) := by
  induction l with
  | nil =>
    intro r a h
    simpa [pairFold] using h
  | cons s t ih =>
    intro r a h
    obtain ⟨hacc, hrow, hcol⟩ := hall s (List.mem_cons_self s t)
    rw [List.foldl_cons]
    have hstep : (binStep b S r s) i j = some ((a + s.value) / 2) := by
      rw [binStep_hit b S s r i j hacc hrow hcol, h]
    have := ih (fun u hu => hall u (List.mem_cons_of_mem s hu))
      (binStep b S r s) ((a + s.value) / 2) hstep
    simpa [pairFold] using this

lemma foldl_binStep_no_hits (b : Bounds) (S : ℚ) (i j : ℤ) (l : List Sample)
    (hall : ∀ s ∈ l, ¬ (accepted b S s ∧ rowOf b S s.y = i ∧ colOf b S s.x = j)) :
    ∀ r : ℤ → ℤ → Option ℚ, (l.foldl (binStep b S) r) i j = r i j := by
  induction l with
  | nil =>
    intro r
    rfl
  | cons s t ih =>
    intro r
    rw [List.foldl_cons]
    rw [ih (fun u hu => hall u (List.mem_cons_of_mem s hu))]
    exact binStep_miss b S s r i j (hall s (List.mem_cons_self s t))

/-- C5: when every sample of a nonempty list is accepted and lands in the same
cell `(i, j)`, that cell ends holding the running pairwise average of the
values in arrival order: the first value as-is, each later value averaged
with the current cell value. -/
theorem collision_running_pairwise_average (b : Bounds) (S : ℚ) (i j : ℤ)
    (first : Sample) (rest : List Sample)
    (hall : ∀ s ∈ first :: rest,
      accepted b S s ∧ rowOf b S s.y = i ∧ colOf b S s.x = j) :
    preSmoothed b S (first :: rest) i j =
      pairFold first.value (rest.map Sample.value) := by
  unfold preSmoothed binPoints
  rw [List.foldl_cons]
  obtain ⟨hacc, hrow, hcol⟩ := hall first (List.mem_cons_self first rest)
  have h0 : (binStep b S (fun _ _ => none) first) i j = some first.value := by
    rw [binStep_hit b S first _ i j hacc hrow hcol]
  rw [foldl_binStep_all_hits b S i j rest
    (fun u hu => hall u (List.mem_cons_of_mem first hu)) _ _ h0]

/-- C6: a cell that no accepted sample maps to still holds the `NaN`
placeholder after the loop, hence the sentinel after
`np.where(np.isnan(raster), nodata, raster)`. -/
theorem untouched_cell_holds_sentinel (b : Bounds) (S : ℚ)
    (samples : List Sample) (i j : ℤ)
    (h : ∀ s ∈ samples,
      ¬ (accepted b S s ∧ rowOf b S s.y = i ∧ colOf b S s.x = j)) :
    preSmoothed b S samples i j = nodata := by
  unfold preSmoothed binPoints
  rw [foldl_binStep_no_hits b S i j samples h]

lemma sum_map_ite_filter {α : Type} (l : List α) (f : α → ℚ) (p : α → Prop)
    [DecidablePred p] :
    (l.map (fun q => if p q then f q else 0)).sum
      = ((l.filter (fun q => decide (p q))).map f).sum := by
  induction l with
  | nil => simp
  | cons a t ih =>
    by_cases h : p a
    · simp [h, ih]
    · simp [h, ih]

lemma sum_map_ite_one {α : Type} (l : List α) (p : α → Prop)
    [DecidablePred p] :
    (l.map (fun q => if p q then (1 : ℚ) else 0)).sum
      = ((l.filter (fun q => decide (p q))).length : ℚ) := by
  induction l with
  | nil => simp
  | cons a t ih =>
    by_cases h : p a
    · simp [h, ih]
      ring
    · simp [h, ih]

lemma sum_map_const {α : Type} (l : List α) (c : ℚ) :
    (l.map (fun _ => c)).sum = (l.length : ℚ) * c := by
  induction l with
  | nil => simp
  | cons a t ih =>
    simp [ih]
    ring

lemma windowOffsets_three : windowOffsets 3 = [-1, 0, 1] := by
  simp [windowOffsets, List.range_succ]

lemma windowOffsets_length (s : ℕ) : (windowOffsets s).length = s := by
  rw [windowOffsets, List.length_map]
  exact List.length_range s

lemma reflectIndex_of_lt {n t : ℤ} (h0 : 0 ≤ t) (h1 : t < n) :
    reflectIndex n t = t := by
  unfold reflectIndex
  have h2 : t % (2 * n) = t := Int.emod_eq_of_lt h0 (by omega)
  simp only [h2]
  rw [if_pos h1]

lemma uniform_filter_three_interior (h w : ℤ) (g : ℤ → ℤ → ℚ) (i j : ℤ)
    (hi1 : 1 ≤ i) (hi2 : i + 1 < h) (hj1 : 1 ≤ j) (hj2 : j + 1 < w) :
    uniform_filter h w 3 g i j
      = (offsets3.map (fun p => g (i + p.1) (j + p.2))).sum / 9 := by
  unfold uniform_filter
  rw [windowOffsets_three]
  have e1 : reflectIndex h (i + -1) = i + -1 :=
    reflectIndex_of_lt (by omega) (by omega)
  have e2 : reflectIndex h (i + 0) = i + 0 :=
    reflectIndex_of_lt (by omega) (by omega)
  have e3 : reflectIndex h (i + 1) = i + 1 :=
    reflectIndex_of_lt (by omega) (by omega)
  have f1 : reflectIndex w (j + -1) = j + -1 :=
    reflectIndex_of_lt (by omega) (by omega)
  have f2 : reflectIndex w (j + 0) = j + 0 :=
    reflectIndex_of_lt (by omega) (by omega)
  have f3 : reflectIndex w (j + 1) = j + 1 :=
    reflectIndex_of_lt (by omega) (by omega)
  simp only [List.map_cons, List.map_nil, List.sum_cons, List.sum_nil,
    e1, e2, e3, f1, f2, f3, offsets3]
  ring

lemma weight_mask_three_interior (h w : ℤ) (g : ℤ → ℤ → ℚ) (i j : ℤ)
    (hi1 : 1 ≤ i) (hi2 : i + 1 < h) (hj1 : 1 ≤ j) (hj2 : j + 1 < w) :
    weight_mask h w 3 g i j = (validCount g i j : ℚ) / 9 := by
  unfold weight_mask
  rw [uniform_filter_three_interior h w _ i j hi1 hi2 hj1 hj2]
  unfold validCount
  simp only [maskFloat]
  rw [sum_map_ite_one offsets3 (fun p => g (i + p.1) (j + p.2) ≠ nodata)]

lemma smoothed_raster_three_interior (h w : ℤ) (g : ℤ → ℤ → ℚ) (i j : ℤ)
    (hi1 : 1 ≤ i) (hi2 : i + 1 < h) (hj1 : 1 ≤ j) (hj2 : j + 1 < w) :
    smoothed_raster h w 3 g i j = validSum g i j / 9 := by
  unfold smoothed_raster
  rw [uniform_filter_three_interior h w _ i j hi1 hi2 hj1 hj2]
  unfold validSum
  simp only [zeroed]
  rw [sum_map_ite_filter offsets3 (fun p => g (i + p.1) (j + p.2))
    (fun p => g (i + p.1) (j + p.2) ≠ nodata)]

/-- C7: at an interior cell, the 3×3 smoothing recovers the mean of the
valid neighbors if any exist, and the sentinel otherwise. -/
theorem smoothing_interior_focal_mean (h w : ℤ) (g : ℤ → ℤ → ℚ) (i j : ℤ)
    (hi1 : 1 ≤ i) (hi2 : i + 1 < h) (hj1 : 1 ≤ j) (hj2 : j + 1 < w) :
    (0 < validCount g i j →
      raster_smoothed h w 3 g i j = validSum g i j / (validCount g i j : ℚ)) ∧
    (validCount g i j = 0 → raster_smoothed h w 3 g i j = nodata) := by
  have hwt := weight_mask_three_interior h w g i j hi1 hi2 hj1 hj2
  have hsm := smoothed_raster_three_interior h w g i j hi1 hi2 hj1 hj2
  constructor
  · intro hk
    have hkq : (0 : ℚ) < (validCount g i j : ℚ) := by
      exact_mod_cast hk
    have hpos : 0 < weight_mask h w 3 g i j := by
      rw [hwt]
      positivity
    unfold raster_smoothed npWhere quotientGrid
    rw [if_pos (decide_eq_true hpos), hsm, hwt]
    have hk0 : (validCount g i j : ℚ) ≠ 0 := ne_of_gt hkq
    field_simp
  · intro hk
    have hz : ¬ (0 < weight_mask h w 3 g i j) := by
      rw [hwt, hk]
      norm_num
    unfold raster_smoothed npWhere
    rw [if_neg (by simpa using hz)]

lemma uniform_filter_const (h w : ℤ) (s : ℕ) (hs : 1 ≤ s) (c : ℚ)
    (g : ℤ → ℤ → ℚ) (hg : ∀ i j, g i j = c) :
    ∀ i j, uniform_filter h w s g i j = c := by
  intro i j
  unfold uniform_filter
  simp only [hg, sum_map_const, windowOffsets_length]
  have hsne : ((s : ℚ)) ≠ 0 := by
    have : s ≠ 0 := by omega
    exact_mod_cast this
  field_simp
  ring

/-- C8: smoothing a fully valid constant grid returns it unchanged, at every
cell (interior and boundary alike, thanks to the reflect boundary mode), for
every window size ≥ 1. -/
theorem smoothing_constant_grid_identity (h w : ℤ) (s : ℕ) (hs : 1 ≤ s)
    (c : ℚ) (hc : c ≠ nodata) (g : ℤ → ℤ → ℚ) (hg : ∀ i j, g i j = c) :
    ∀ i j, raster_smoothed h w s g i j = g i j := by
  have hz : ∀ i j, zeroed g i j = c := by
    intro i j
    unfold zeroed
    rw [hg]
    rw [if_pos hc]
  have hm : ∀ i j, maskFloat g i j = 1 := by
    intro i j
    unfold maskFloat
    rw [hg]
    rw [if_pos hc]
  intro i j
  have h1 : smoothed_raster h w s g i j = c :=
    uniform_filter_const h w s hs c _ hz i j
  have h2 : weight_mask h w s g i j = 1 :=
    uniform_filter_const h w s hs 1 _ hm i j
  unfold raster_smoothed npWhere quotientGrid
  rw [if_pos (decide_eq_true (by rw [h2]; norm_num))]
  rw [h1, h2, hg, div_one]

/-- C1 evidence: on a grid whose cells are all no-data (so the windowed
weight is 0 everywhere), the strict `np.where` evaluation of
`smoothed_raster / weight_mask` does reach a zero-weight cell — the divide
warning recorded in the notebook output — even though the selected output is
the sentinel. -/
theorem unconditional_division_reaches_zero_weight_cell :
    divideByZeroWarned 1 1 3 (fun _ _ => nodata) = true ∧
    weight_mask 1 1 3 (fun _ _ => nodata) 0 0 = 0 ∧
    raster_smoothed 1 1 3 (fun _ _ => nodata) 0 0 = nodata := by
  have hm : ∀ i j : ℤ, maskFloat (fun _ _ => nodata) i j = 0 := by
    intro i j
    simp [maskFloat]
  have hw : ∀ i j : ℤ, weight_mask 1 1 3 (fun _ _ => nodata) i j = 0 := by
    intro i j
    unfold weight_mask uniform_filter
    simp only [hm, sum_map_const, windowOffsets_length]
    norm_num
  refine ⟨?_, hw 0 0, ?_⟩
  · simp [divideByZeroWarned, List.range_succ, hw]
  · unfold raster_smoothed npWhere
    rw [if_neg (by simp [hw])]

/-- An outcome line of the batch loop: either `Processed: name -> output` or
`Error processing name: e`. -/
inductive BatchEntry (α ε : Type) : Type where
  | processed : α → BatchEntry α ε
  | errorReported : α → ε → BatchEntry α ε
deriving DecidableEq

/-- The batch loop of `process_shapefiles`: for each input file, run the
per-file pipeline inside `try`; on success report it processed, on an
exception report the error — and in both cases continue with the rest. -/
def process_shapefiles {α β ε : Type} (run : α → Except ε β) :
    List α → List (BatchEntry α ε)
  | [] => []
  | f :: rest =>
    (match run f with
     | Except.ok _ => BatchEntry.processed f
     | Except.error e => BatchEntry.errorReported f e) ::
    process_shapefiles run rest

/-- C9: a file whose processing fails is reported as an error, and the rest
of the batch — before and after it — is processed exactly as it would have
been without the failure. -/
theorem batch_isolates_per_file_failures {α β ε : Type}
    (run : α → Except ε β) (pre post : List α) (bad : α) (e : ε)
    (hb : run bad = Except.error e) :
    process_shapefiles run (pre ++ bad :: post)
      = process_shapefiles run pre
        ++ BatchEntry.errorReported bad e :: process_shapefiles run post := by
  induction pre with
  | nil => simp [process_shapefiles, hb]
  | cons a t ih => simp [process_shapefiles, ih]

/-- C10: a sample whose attribute value is exactly the sentinel `-9999`
produces a pre-smoothed grid identical to the one produced with no sample at
all, and any cell holding the sentinel — whatever its provenance — is
classified invalid and contributes zero value and zero weight to the
smoother. -/
theorem sentinel_valued_cell_treated_as_nodata (b : Bounds) (S : ℚ)
    (s : Sample) (hv : s.value = nodata) :
    (∀ i j, preSmoothed b S [s] i j = preSmoothed b S [] i j) ∧
    (∀ (g : ℤ → ℤ → ℚ) (i j : ℤ), g i j = nodata →
      valid_mask g i j = false ∧ zeroed g i j = 0 ∧ maskFloat g i j = 0) := by
  constructor
  · intro i j
    unfold preSmoothed binPoints
    simp only [List.foldl_cons, List.foldl_nil]
    unfold binStep
    by_cases hacc : accepted b S s
    · rw [if_pos hacc]
      by_cases hij : i = rowOf b S s.y ∧ j = colOf b S s.x
      · rw [if_pos hij]
        simp [hv]
      · rw [if_neg hij]
    · rw [if_neg hacc]
  · intro g i j hg
    refine ⟨?_, ?_, ?_⟩
    · simp [valid_mask, hg]
    · simp [zeroed, hg]
    · simp [maskFloat, hg]

lemma pyInt_floor_eval {q : ℚ} {z : ℤ} (h0 : 0 ≤ q) (h1 : (z : ℚ) ≤ q)
    (h2 : q < z + 1) : pyInt q = z := by
  rw [pyInt_of_nonneg h0]
  rw [Int.floor_eq_iff]
  exact ⟨h1, h2⟩

lemma colOf_demo : colOf ⟨0, 100, 100, 0⟩ 10 5 = 0 :=
  pyInt_floor_eval (by norm_num) (by norm_num) (by norm_num)

lemma rowOf_demo : rowOf ⟨0, 100, 100, 0⟩ 10 95 = 0 :=
  pyInt_floor_eval (by norm_num) (by norm_num) (by norm_num)

lemma width_demo : width ⟨0, 100, 100, 0⟩ 10 = 10 :=
  pyInt_floor_eval (by norm_num) (by norm_num) (by norm_num)

lemma height_demo : height ⟨0, 100, 100, 0⟩ 10 = 10 :=
  pyInt_floor_eval (by norm_num) (by norm_num) (by norm_num)

lemma accepted_demo (v : ℚ) : accepted ⟨0, 100, 100, 0⟩ 10 ⟨5, 95, v⟩ := by
  refine ⟨?_, ?_, ?_, ?_⟩
  · show (0 : ℤ) ≤ colOf ⟨0, 100, 100, 0⟩ 10 5
    rw [colOf_demo]
  · show colOf ⟨0, 100, 100, 0⟩ 10 5 < width ⟨0, 100, 100, 0⟩ 10
    rw [colOf_demo, width_demo]
    norm_num
  · show (0 : ℤ) ≤ rowOf ⟨0, 100, 100, 0⟩ 10 95
    rw [rowOf_demo]
  · show rowOf ⟨0, 100, 100, 0⟩ 10 95 < height ⟨0, 100, 100, 0⟩ 10
    rw [rowOf_demo, height_demo]
    norm_num

/-- Witness for C2's amended theorem at `x = 150`, outside `[0, 100)`. -/
theorem oob_sample_leaves_grid_unchanged_witness :
    binPoints ⟨0, 100, 100, 0⟩ 10 ([] ++ (⟨150, 95, 7⟩ : Sample) :: [])
      = binPoints ⟨0, 100, 100, 0⟩ 10 ([] ++ []) :=
  oob_sample_leaves_grid_unchanged ⟨0, 100, 100, 0⟩ 10 (by norm_num)
    ⟨150, 95, 7⟩
    (by rintro ⟨-, h2, -, -⟩; norm_num at h2)
    (by rintro ⟨-, h2⟩; norm_num at h2)
    (by rintro ⟨h1, -⟩; norm_num at h1)
    [] []

/-- Witness for C3's amended theorem at an in-extent point. -/
theorem index_mapping_truncates_toward_zero_witness :
    colOf ⟨0, 100, 100, 0⟩ 10 5
        = ⌊((5 : ℚ) - (Bounds.mk 0 100 100 0).left) / 10⌋ ∧
    rowOf ⟨0, 100, 100, 0⟩ 10 95
        = ⌊((Bounds.mk 0 100 100 0).top - 95) / 10⌋ :=
  ⟨(index_mapping_truncates_toward_zero ⟨0, 100, 100, 0⟩ 10 5 95
      (by norm_num)).2.2.1 (by norm_num),
   (index_mapping_truncates_toward_zero ⟨0, 100, 100, 0⟩ 10 5 95
      (by norm_num)).2.2.2 (by norm_num)⟩

/-- Witness for C4 at the extent `(0, 100, 100, 0)` with cell size 10. -/
theorem grid_dims_are_floor_witness :
    width ⟨0, 100, 100, 0⟩ 10
        = ⌊((Bounds.mk 0 100 100 0).right - (Bounds.mk 0 100 100 0).left) / 10⌋ ∧
    height ⟨0, 100, 100, 0⟩ 10
        = ⌊((Bounds.mk 0 100 100 0).top - (Bounds.mk 0 100 100 0).bottom) / 10⌋ :=
  grid_dims_are_floor ⟨0, 100, 100, 0⟩ 10 (by norm_num) (by norm_num) (by norm_num)

/-- Witness for C5: values 10 then 20 average to 15; a later 40 gives
`(15 + 40) / 2 = 27.5`, which differs from the cumulative mean `70 / 3`. -/
theorem collision_running_pairwise_average_witness :
    preSmoothed ⟨0, 100, 100, 0⟩ 10 [⟨5, 95, 10⟩, ⟨5, 95, 20⟩, ⟨5, 95, 40⟩] 0 0
        = 55 / 2 ∧
    preSmoothed ⟨0, 100, 100, 0⟩ 10 [⟨5, 95, 10⟩, ⟨5, 95, 20⟩] 0 0 = 15 ∧
    (55 / 2 : ℚ) ≠ (10 + 20 + 40) / 3 := by
  have hall3 : ∀ s ∈ [(⟨5, 95, 10⟩ : Sample), ⟨5, 95, 20⟩, ⟨5, 95, 40⟩],
      accepted ⟨0, 100, 100, 0⟩ 10 s ∧
      rowOf ⟨0, 100, 100, 0⟩ 10 s.y = 0 ∧ colOf ⟨0, 100, 100, 0⟩ 10 s.x = 0 := by
    intro s hs
    simp only [List.mem_cons, List.not_mem_nil, or_false] at hs
    rcases hs with rfl | rfl | rfl
    · exact ⟨accepted_demo 10, rowOf_demo, colOf_demo⟩
    · exact ⟨accepted_demo 20, rowOf_demo, colOf_demo⟩
    · exact ⟨accepted_demo 40, rowOf_demo, colOf_demo⟩
  have hall2 : ∀ s ∈ [(⟨5, 95, 10⟩ : Sample), ⟨5, 95, 20⟩],
      accepted ⟨0, 100, 100, 0⟩ 10 s ∧
      rowOf ⟨0, 100, 100, 0⟩ 10 s.y = 0 ∧ colOf ⟨0, 100, 100, 0⟩ 10 s.x = 0 := by
    intro s hs
    simp only [List.mem_cons, List.not_mem_nil, or_false] at hs
    rcases hs with rfl | rfl
    · exact ⟨accepted_demo 10, rowOf_demo, colOf_demo⟩
    · exact ⟨accepted_demo 20, rowOf_demo, colOf_demo⟩
  refine ⟨?_, ?_, by norm_num⟩
  · rw [collision_running_pairwise_average ⟨0, 100, 100, 0⟩ 10 0 0
      ⟨5, 95, 10⟩ [⟨5, 95, 20⟩, ⟨5, 95, 40⟩] hall3]
    simp [pairFold]
    norm_num
  · rw [collision_running_pairwise_average ⟨0, 100, 100, 0⟩ 10 0 0
      ⟨5, 95, 10⟩ [⟨5, 95, 20⟩] hall2]
    simp [pairFold]
    norm_num

/-- Witness for C6: with a single sample landing in cell `(0, 0)`, the cell
`(5, 5)` holds the sentinel. -/
theorem untouched_cell_holds_sentinel_witness :
    preSmoothed ⟨0, 100, 100, 0⟩ 10 [⟨5, 95, 10⟩] 5 5 = nodata := by
  apply untouched_cell_holds_sentinel
  intro s hs
  simp only [List.mem_singleton] at hs
  subst hs
  rintro ⟨-, hr, -⟩
  have h5 : rowOf ⟨0, 100, 100, 0⟩ 10 95 = 5 := hr
  rw [rowOf_demo] at h5
  exact absurd h5 (by decide)

/-- Witness for C7: in a 3×3 grid whose only valid cell is `(0, 0)` with
value 12, the smoothed interior cell `(1, 1)` gets `12 / 1 = 12`. -/
theorem smoothing_interior_focal_mean_witness :
    raster_smoothed 3 3 3
      (fun i j => if i = 0 ∧ j = 0 then (12 : ℚ) else nodata) 1 1 = 12 := by
  have hcount : validCount
      (fun i j => if i = 0 ∧ j = 0 then (12 : ℚ) else nodata) 1 1 = 1 := by
    norm_num [validCount, offsets3, nodata]
  have hsum : validSum
      (fun i j => if i = 0 ∧ j = 0 then (12 : ℚ) else nodata) 1 1 = 12 := by
    norm_num [validSum, offsets3, nodata]
  have h := (smoothing_interior_focal_mean 3 3
      (fun i j => if i = 0 ∧ j = 0 then (12 : ℚ) else nodata) 1 1
      (by norm_num) (by norm_num) (by norm_num) (by norm_num)).1
    (by rw [hcount]; norm_num)
  rw [h, hcount, hsum]
  norm_num

/-- Witness for C8: a constant 2×2 grid of value 5 is unchanged by a 4×4
smoothing window, boundary cell `(0, 0)` included. -/
theorem smoothing_constant_grid_identity_witness :
    raster_smoothed 2 2 4 (fun _ _ => (5 : ℚ)) 0 0 = 5 :=
  smoothing_constant_grid_identity 2 2 4 (by norm_num) 5
    (by norm_num [nodata]) (fun _ _ => 5) (fun _ _ => rfl) 0 0

/-- Witness for C9: file 1 of `[0, 1, 2]` fails, is reported, and files 0
and 2 are still processed. -/
theorem batch_isolates_per_file_failures_witness :
    process_shapefiles
        (fun n : ℕ => if n = 1 then Except.error 7 else Except.ok n)
        ([0] ++ 1 :: [2])
      = process_shapefiles
          (fun n : ℕ => if n = 1 then Except.error 7 else Except.ok n) [0]
        ++ BatchEntry.errorReported 1 7
        :: process_shapefiles
            (fun n : ℕ => if n = 1 then Except.error 7 else Except.ok n) [2] :=
  batch_isolates_per_file_failures
    (fun n : ℕ => if n = 1 then Except.error 7 else Except.ok n)
    [0] [2] 1 7 (by simp)

/-- Witness for C10: a sample valued exactly `-9999` leaves the grid
indistinguishable from the empty-input grid, and a sentinel cell is masked
invalid. -/
theorem sentinel_valued_cell_treated_as_nodata_witness :
    preSmoothed ⟨0, 100, 100, 0⟩ 10 [⟨5, 95, -9999⟩] 0 0
        = preSmoothed ⟨0, 100, 100, 0⟩ 10 [] 0 0 ∧
    valid_mask (fun _ _ => nodata) 0 0 = false :=
  ⟨(sentinel_valued_cell_treated_as_nodata ⟨0, 100, 100, 0⟩ 10
      ⟨5, 95, -9999⟩ rfl).1 0 0,
   ((sentinel_valued_cell_treated_as_nodata ⟨0, 100, 100, 0⟩ 10
      ⟨5, 95, -9999⟩ rfl).2 (fun _ _ => nodata) 0 0 rfl).1⟩
